import Mathlib

/-!
Formal model of the Harvey desktop agent (harvey.py and api_manager.py),
as a shallow embedding in Lean 4.

Conventions of the embedding:
* Python floats are modelled as rationals (ℚ); every concrete value the
  theorems touch (0.5, 0.8, 0.1, retry delays written with one decimal)
  is exactly representable, so the idealisation is faithful there.
* Python strings are modelled as `String` or `List Char` (ASCII inputs).
* Side effects (prints, sleeps, native events) are dropped; only the
  values and state transitions the control flow depends on are kept.
* `round` is Python's round-half-to-even; `int` is truncation toward 0.
-/

/-- Python `round` on an exact rational: round half to even. -/
def pyRound (q : ℚ) : ℤ :=
  let f := ⌊q⌋
  let frac := q - (f : ℚ)
  if frac < 1/2 then f
  else if 1/2 < frac then f + 1
  else if f % 2 = 0 then f else f + 1

/-- Python `int()` on an exact rational: truncation toward zero. -/
def pyTrunc (q : ℚ) : ℤ :=
  if 0 ≤ q then ⌊q⌋ else ⌈q⌉

/-- harvey.py `_transform_coords` (lines 75-88): clamp the ratios to
[0,1], then `int(round(ratio * (dim - 1)))`.  The screen dimensions
(w, h) are parameters because `get_screen_info` queries the host. -/
def transform_coords (w h : ℤ) (x_ratio y_ratio : ℚ) : ℤ × ℤ :=
  let xr := max 0 (min 1 x_ratio)
  let yr := max 0 (min 1 y_ratio)
  (pyRound (xr * ((w : ℚ) - 1)), pyRound (yr * ((h : ℚ) - 1)))

/-- harvey.py `calibrate_click_position` (lines 191-198):
`int(x + offset_x), int(y + offset_y)` with the offsets read from the
environment as floats (modelled as ℚ parameters). -/
def calibrate_click_position (offset_x offset_y : ℚ) (p : ℤ × ℤ) : ℤ × ℤ :=
  (pyTrunc ((p.1 : ℚ) + offset_x), pyTrunc ((p.2 : ℚ) + offset_y))

/-- harvey.py `move_mouse` (lines 171-176): the target handed to
`smooth_move_mouse` is the transformed point, with no calibration. -/
def move_mouse_target (w h : ℤ) (x_ratio y_ratio : ℚ) : ℤ × ℤ :=
  transform_coords w h x_ratio y_ratio

/-- harvey.py `hover` (lines 369-382): the hover target is the
transformed point, with no calibration. -/
def hover_target (w h : ℤ) (x_ratio y_ratio : ℚ) : ℤ × ℤ :=
  transform_coords w h x_ratio y_ratio

/-- harvey.py `ultra_precise_click` (lines 276-321, used by `left_click`):
transform, then calibrate; the result is the click target. -/
def left_click_target (w h : ℤ) (offset_x offset_y : ℚ)
    (x_ratio y_ratio : ℚ) : ℤ × ℤ :=
  calibrate_click_position offset_x offset_y (transform_coords w h x_ratio y_ratio)

/-- harvey.py `double_click` (lines 331-367): transform, then calibrate;
the mouse events are posted at exactly this point. -/
def double_click_target (w h : ℤ) (offset_x offset_y : ℚ)
    (x_ratio y_ratio : ℚ) : ℤ × ℤ :=
  calibrate_click_position offset_x offset_y (transform_coords w h x_ratio y_ratio)

/-! ### Mouse trail (harvey.py lines 33-107) -/

/-- One record of `_TRAIL_POINTS`: `{'x', 'y', 'opacity', 'size'}`. -/
structure TrailPoint where
  x : ℤ
  y : ℤ
  opacity : ℚ
  size : ℚ
deriving DecidableEq

/-- The decay applied to an existing point on insertion:
`opacity *= 0.8`, `size *= 0.95`. -/
def fadePoint (p : TrailPoint) : TrailPoint :=
  { p with opacity := p.opacity * (4/5), size := p.size * (19/20) }

/-- `for point in _TRAIL_POINTS[:-1]`: fade every point but the last. -/
def fadeInit : List TrailPoint → List TrailPoint
  | [] => []
  | [p] => [p]
  | p :: q :: rest => fadePoint p :: fadeInit (q :: rest)

/-- harvey.py `_add_trail_point` (lines 90-107), enabled path: append the
new point at opacity 1.0 and size 8, drop entries with opacity ≤ 0.1,
keep the last 15, fade all but the newest. -/
def add_trail_point (ps : List TrailPoint) (x y : ℤ) : List TrailPoint :=
  let ps1 := ps ++ [⟨x, y, 1, 8⟩]
  let ps2 := ps1.filter (fun p => (1 : ℚ)/10 < p.opacity)
  let ps3 := if ps2.length > 15 then ps2.drop (ps2.length - 15) else ps2
  fadeInit ps3

/-! ### Helper lemmas for the coordinate model -/

theorem pyTrunc_intCast (n : ℤ) : pyTrunc (n : ℚ) = n := by
  unfold pyTrunc
  split
  · exact Int.floor_intCast n
  · exact Int.ceil_intCast n

theorem transform_coords_center :
    transform_coords 1920 1080 (1/2) (1/2) = (960, 540) := by
  unfold transform_coords pyRound
  norm_num [min_def, max_def]

theorem transform_coords_in_range (w h : ℤ) (xr yr : ℚ)
    (hx0 : 0 ≤ xr) (hx1 : xr ≤ 1) (hy0 : 0 ≤ yr) (hy1 : yr ≤ 1) :
    transform_coords w h xr yr
      = (pyRound (xr * ((w : ℚ) - 1)), pyRound (yr * ((h : ℚ) - 1))) := by
  unfold transform_coords
  rw [min_eq_right hx1, max_eq_right hx0, min_eq_right hy1, max_eq_right hy0]

theorem calibrate_int_offsets (dx dy : ℤ) (p : ℤ × ℤ) :
    calibrate_click_position (dx : ℚ) (dy : ℚ) p = (p.1 + dx, p.2 + dy) := by
  unfold calibrate_click_position
  have h1 : ((p.1 : ℚ)) + (dx : ℚ) = ((p.1 + dx : ℤ) : ℚ) := by push_cast; ring
  have h2 : ((p.2 : ℚ)) + (dy : ℚ) = ((p.2 + dy : ℤ) : ℚ) := by push_cast; ring
  rw [h1, h2, pyTrunc_intCast, pyTrunc_intCast]

/-! ### C1: calibration round-trip at the screen center -/

/-- C1 counterexample: the claim says ratio (0.5, 0.5) on 1920×1080 with
offset (0, 0) yields (959, 539); the code yields (960, 540), because
Python rounds 959.5 to 960 and 539.5 to 540 (round half to even). -/
theorem c1_counterexample :
    calibrate_click_position 0 0 (transform_coords 1920 1080 (1/2) (1/2))
        = (960, 540) ∧
    ((960 : ℤ), (540 : ℤ)) ≠ ((959 : ℤ), (539 : ℤ)) := by
  refine ⟨?_, by decide⟩
  rw [transform_coords_center]
  have h := calibrate_int_offsets 0 0 (960, 540)
  simpa using h

/-- C1 amended: converting ratio (0.5, 0.5) on a 1920×1080 logical screen
and then applying an integer calibration offset (dx, dy) yields
(960 + dx, 540 + dy). -/
theorem c1_round_trip (dx dy : ℤ) :
    calibrate_click_position (dx : ℚ) (dy : ℚ)
        (transform_coords 1920 1080 (1/2) (1/2)) = (960 + dx, 540 + dy) := by
  rw [transform_coords_center, calibrate_int_offsets]

/-! ### C4: which pointer operations apply the calibration offset -/

/-- C4 counterexample: with calibration offset (10, 0), the hover target
for ratio (0.5, 0.5) on 1920×1080 is not the converted point plus the
offset — `hover` never calls `calibrate_click_position`. -/
theorem c4_counterexample :
    hover_target 1920 1080 (1/2) (1/2) ≠
      calibrate_click_position 10 0 (transform_coords 1920 1080 (1/2) (1/2)) := by
  have h1 : hover_target 1920 1080 (1/2) (1/2) = (960, 540) := transform_coords_center
  rw [h1, transform_coords_center]
  norm_num [calibrate_click_position, pyTrunc]

/-- C4 amended: for in-range ratios and integer offsets, `left_click` and
`double_click` target `round(ratio*(dim-1)) + offset`, while `move_mouse`
and `hover` target `round(ratio*(dim-1))` with no offset applied. -/
theorem c4_offset_only_for_clicks (w h dx dy : ℤ) (xr yr : ℚ)
    (hx0 : 0 ≤ xr) (hx1 : xr ≤ 1) (hy0 : 0 ≤ yr) (hy1 : yr ≤ 1) :
    left_click_target w h (dx : ℚ) (dy : ℚ) xr yr
        = (pyRound (xr * ((w : ℚ) - 1)) + dx, pyRound (yr * ((h : ℚ) - 1)) + dy) ∧
    double_click_target w h (dx : ℚ) (dy : ℚ) xr yr
        = (pyRound (xr * ((w : ℚ) - 1)) + dx, pyRound (yr * ((h : ℚ) - 1)) + dy) ∧
    move_mouse_target w h xr yr
        = (pyRound (xr * ((w : ℚ) - 1)), pyRound (yr * ((h : ℚ) - 1))) ∧
    hover_target w h xr yr
        = (pyRound (xr * ((w : ℚ) - 1)), pyRound (yr * ((h : ℚ) - 1))) := by
  have ht := transform_coords_in_range w h xr yr hx0 hx1 hy0 hy1
  refine ⟨?_, ?_, ?_, ?_⟩
  · unfold left_click_target
    rw [ht, calibrate_int_offsets]
  · unfold double_click_target
    rw [ht, calibrate_int_offsets]
  · unfold move_mouse_target
    rw [ht]
  · unfold hover_target
    rw [ht]

/-- C4 witness: the amended statement instantiated at screen 1920×1080,
offset (10, -3), ratio (1/2, 1/4). -/
theorem c4_offset_only_for_clicks_witness :
    (0 ≤ (1/2 : ℚ) ∧ (1/2 : ℚ) ≤ 1 ∧ 0 ≤ (1/4 : ℚ) ∧ (1/4 : ℚ) ≤ 1) ∧
    left_click_target 1920 1080 ((10 : ℤ) : ℚ) (((-3 : ℤ)) : ℚ) (1/2) (1/4)
        = (pyRound ((1/2 : ℚ) * ((1920 : ℚ) - 1)) + 10,
           pyRound ((1/4 : ℚ) * ((1080 : ℚ) - 1)) + (-3)) := by
  refine ⟨⟨by norm_num, by norm_num, by norm_num, by norm_num⟩, ?_⟩
  have h := c4_offset_only_for_clicks 1920 1080 10 (-3) (1/2) (1/4)
    (by norm_num) (by norm_num) (by norm_num) (by norm_num)
  have h1 := h.1
  have hw : ((1920 : ℤ) : ℚ) = (1920 : ℚ) := by norm_num
  have hh : ((1080 : ℤ) : ℚ) = (1080 : ℚ) := by norm_num
  rw [hw, hh] at h1
  exact h1

/-! ### C9: trail buffer invariants -/

theorem fadeInit_concat (q : List TrailPoint) (a : TrailPoint) :
    fadeInit (q ++ [a]) = q.map fadePoint ++ [a] := by
  induction q with
  | nil => rfl
  | cons b rest ih =>
    cases rest with
    | nil => rfl
    | cons c rest2 =>
      show fadePoint b :: fadeInit ((c :: rest2) ++ [a]) = _
      rw [ih]
      rfl

theorem drop_append_singleton {α : Type} (q : List α) (a : α) (k : ℕ)
    (hk : k ≤ q.length) : (q ++ [a]).drop k = q.drop k ++ [a] := by
  induction q generalizing k with
  | nil =>
    have : k = 0 := Nat.le_zero.mp hk
    simp [this]
  | cons b rest ih =>
    cases k with
    | zero => simp
    | succ k2 =>
      simp only [List.cons_append, List.drop_succ_cons]
      exact ih k2 (Nat.le_of_succ_le_succ hk)

theorem add_trail_point_decomp (ps : List TrailPoint) (x y : ℤ) :
    ∃ q3 : List TrailPoint,
      add_trail_point ps x y = q3.map fadePoint ++ [⟨x, y, 1, 8⟩] ∧
      (∀ p ∈ q3, p ∈ ps) ∧ q3.length ≤ 14 := by
  have hfil : (ps ++ [(⟨x, y, 1, 8⟩ : TrailPoint)]).filter
        (fun p => (1 : ℚ)/10 < p.opacity)
      = ps.filter (fun p => (1 : ℚ)/10 < p.opacity) ++ [⟨x, y, 1, 8⟩] := by
    rw [List.filter_append]
    congr 1
    simp only [List.filter]
    norm_num
  simp only [add_trail_point]
  rw [hfil]
  set fl := ps.filter (fun p => (1 : ℚ)/10 < p.opacity) with hfl
  have hsub : ∀ p ∈ fl, p ∈ ps := fun p hp => List.mem_of_mem_filter hp
  by_cases hlen : (fl ++ [(⟨x, y, 1, 8⟩ : TrailPoint)]).length > 15
  · rw [if_pos hlen]
    have hlfl : (fl ++ [(⟨x, y, 1, 8⟩ : TrailPoint)]).length = fl.length + 1 := by
      simp
    have hk : (fl ++ [(⟨x, y, 1, 8⟩ : TrailPoint)]).length - 15 ≤ fl.length := by
      omega
    rw [drop_append_singleton fl _ _ hk, fadeInit_concat]
    refine ⟨fl.drop ((fl ++ [(⟨x, y, 1, 8⟩ : TrailPoint)]).length - 15), rfl,
      fun p hp => hsub p (List.drop_subset _ _ hp), ?_⟩
    rw [List.length_drop]
    omega
  · rw [if_neg hlen]
    rw [fadeInit_concat]
    refine ⟨fl, rfl, hsub, ?_⟩
    simp only [List.length_append, List.length_cons, List.length_nil] at hlen
    omega

/-- C9: after any insertion into a trail whose opacities are all ≤ 1, the
stored trail has at most 15 points, is nonempty, all opacities stay ≤ 1,
and the oldest retained point's opacity is ≤ the newest point's. -/
theorem c9_trail_invariant (ps : List TrailPoint) (x y : ℤ)
    (hop : ∀ p ∈ ps, p.opacity ≤ 1) :
    (add_trail_point ps x y).length ≤ 15 ∧
    add_trail_point ps x y ≠ [] ∧
    (∀ p ∈ add_trail_point ps x y, p.opacity ≤ 1) ∧
    (∀ p0 pn, (add_trail_point ps x y).head? = some p0 →
        (add_trail_point ps x y).getLast? = some pn →
        p0.opacity ≤ pn.opacity) := by
  obtain ⟨q3, heq, hmem, hlen⟩ := add_trail_point_decomp ps x y
  have hall : ∀ p ∈ add_trail_point ps x y, p.opacity ≤ 1 := by
    intro p hp
    rw [heq] at hp
    rcases List.mem_append.mp hp with hp | hp
    · obtain ⟨p0, hp0, hfade⟩ := List.mem_map.mp hp
      have h1 : p0.opacity ≤ 1 := hop p0 (hmem p0 hp0)
      rw [← hfade]
      show p0.opacity * (4/5) ≤ 1
      calc p0.opacity * (4/5) ≤ 1 * (4/5) :=
            mul_le_mul_of_nonneg_right h1 (by norm_num)
        _ ≤ 1 := by norm_num
    · have hp2 : p = (⟨x, y, 1, 8⟩ : TrailPoint) := by simpa using hp
      rw [hp2]
  refine ⟨?_, ?_, hall, ?_⟩
  · rw [heq]
    simp only [List.length_append, List.length_map, List.length_cons,
      List.length_nil]
    omega
  · rw [heq]
    simp
  · intro p0 pn h0 hn
    have hlast : (add_trail_point ps x y).getLast? = some (⟨x, y, 1, 8⟩ : TrailPoint) := by
      rw [heq]
      exact List.getLast?_concat _
    have hpn : pn = (⟨x, y, 1, 8⟩ : TrailPoint) := by
      rw [hlast] at hn
      exact (Option.some_inj.mp hn).symm
    have hp0 : p0 ∈ add_trail_point ps x y := List.mem_of_mem_head? h0
    have := hall p0 hp0
    rw [hpn]
    exact this

/-- C9 witness: the invariant applied to the concrete one-point trail
`[⟨0, 0, 1, 8⟩]` with a new point at (5, 7). -/
theorem c9_trail_invariant_witness :
    (∀ p ∈ [(⟨0, 0, 1, 8⟩ : TrailPoint)], p.opacity ≤ 1) ∧
    (add_trail_point [(⟨0, 0, 1, 8⟩ : TrailPoint)] 5 7).length ≤ 15 ∧
    add_trail_point [(⟨0, 0, 1, 8⟩ : TrailPoint)] 5 7 ≠ [] := by
  have hop : ∀ p ∈ [(⟨0, 0, 1, 8⟩ : TrailPoint)], p.opacity ≤ 1 := by
    intro p hp
    have : p = (⟨0, 0, 1, 8⟩ : TrailPoint) := by simpa using hp
    rw [this]
  have h := c9_trail_invariant [(⟨0, 0, 1, 8⟩ : TrailPoint)] 5 7 hop
  exact ⟨hop, h.1, h.2.1⟩

/-! ### Python string primitives, modelled over `List Char` -/

/-- The whitespace set of Python `str.strip` (ASCII fragment):
space, tab, newline, carriage return, vertical tab, form feed. -/
def isPySpace (c : Char) : Bool :=
  c = ' ' || c = '\t' || c = '\n' || c = '\r' ||
  c = Char.ofNat 11 || c = Char.ofNat 12

/-- Python `str.strip()`: drop whitespace from both ends. -/
def pyStrip (l : List Char) : List Char :=
  ((l.dropWhile isPySpace).reverse.dropWhile isPySpace).reverse

/-- Python `str.split('\n')`. -/
def splitNl : List Char → List (List Char)
  | [] => [[]]
  | c :: t =>
    if c = '\n' then [] :: splitNl t
    else
      match splitNl t with
      | [] => [[c]]
      | h :: r => (c :: h) :: r

/-- Python `sub in s` (substring containment). -/
def containsSub (sub : List Char) : List Char → Bool
  | [] => sub.isEmpty
  | c :: t => sub.isPrefixOf (c :: t) || containsSub sub t

/-- Python `str.lower()` (ASCII). -/
def pyLower (l : List Char) : List Char := l.map Char.toLower

/-- Numeric value of a digit string. -/
def natOfDigits (l : List Char) : ℕ :=
  l.foldl (fun a c => 10 * a + (c.toNat - 48)) 0

/-! ### Action parser (harvey.py `Harvey.think`, lines 617-650) -/

/-- The fallback action names scanned for on unlabeled lines
(harvey.py line 636). -/
def fallbackCmds : List (List Char) :=
  ["left_click".data, "type_text".data, "bulk_type".data, "hotkey".data,
   "done".data, "wait".data, "scroll".data]

/-- `any(cmd in line for cmd in [...])`. -/
def containsAnyCmd (line : List Char) : Bool :=
  fallbackCmds.any (fun cmd => containsSub cmd line)

/-- The non-state part of the fallback test of the scan loop (line 634):
`line and not line.startswith("**")` plus the action-name check. -/
def fallbackCond (line : List Char) : Bool :=
  !line.isEmpty && !("**".data.isPrefixOf line) && containsAnyCmd line

/-- The response-parsing loop of `Harvey.think` (lines 622-638): strip
each line; a `See:`/`**See:**` line records the observation, an
`Action:`/`**Action:**` line (``break``) yields the action; otherwise,
while no observation and no action was recorded, a nonempty line not
starting with `**` that contains a known action name is the action.
Returns the action found, or `[]` if none. -/
def scanLines : List (List Char) → List Char → List Char
  | [], _ => []
  | l :: rest, see_line =>
    let line := pyStrip l
    if "See:".data.isPrefixOf line then
      scanLines rest (pyStrip (line.drop 4))
    else if "Action:".data.isPrefixOf line then
      pyStrip (line.drop 7)
    else if "**See:**".data.isPrefixOf line then
      scanLines rest (pyStrip (line.drop 8))
    else if "**Action:**".data.isPrefixOf line then
      pyStrip (line.drop 11)
    else if see_line = [] && fallbackCond line then
      line
    else
      scanLines rest see_line

/-- The action scan applied to a whole response: `response.text.strip()`
then `.split('\n')`, scanned with an empty initial observation. -/
def scanAction (s : String) : List Char :=
  scanLines (splitNl (pyStrip s.data)) []

/-- harvey.py lines 640-650: markdown cleanup of the action (strip
backticks, strip whitespace) and the `"wait(1000)"` default. -/
def parseResponse (s : String) : String :=
  let a := scanAction s
  let a2 := if a ≠ [] then pyStrip (a.filter (fun c => c ≠ Char.ofNat 96)) else a
  if a2 ≠ [] then String.mk a2 else "wait(1000)"

/-! ### C7: unparsable replies resolve to wait(1000) -/

/-- C7: whenever the line scan finds neither a labeled action line nor a
fallback match, the parsed directive is exactly `"wait(1000)"` — never an
error and never empty. -/
theorem c7_default_wait (s : String) (h : scanAction s = []) :
    parseResponse s = "wait(1000)" := by
  simp [parseResponse, h]

/-- C7 witness: a reply with no recognizable action line parses to
`wait(1000)`. -/
theorem c7_default_wait_witness :
    scanAction "I am not sure what the screen shows" = [] ∧
    parseResponse "I am not sure what the screen shows" = "wait(1000)" :=
  ⟨by decide, c7_default_wait _ (by decide)⟩

/-! ### C6: the fallback scan for unlabeled replies -/

/-- Any of the four labels recognized by the scan loop. -/
def isLabeledLine (l : List Char) : Bool :=
  "See:".data.isPrefixOf l || "Action:".data.isPrefixOf l ||
  "**See:**".data.isPrefixOf l || "**Action:**".data.isPrefixOf l

/-- Specification-side description of the fallback: the first stripped
line that is nonempty, does not start with `**`, and contains a known
action-function name; `[]` if there is none. -/
def firstFallbackLine (ls : List (List Char)) : List Char :=
  match ls.find? fallbackCond with
  | some l => l
  | none => []

/-- C6 counterexample: a reply with no labeled action line whose second
line contains `left_click` is NOT accepted by the fallback — the `See:`
line disables the fallback scan — so parsing yields `wait(1000)` instead
of the matching line. -/
theorem c6_counterexample :
    (splitNl (pyStrip ("See: Safari open\nI will left_click(0.5, 0.5) now".data))).all
        (fun l => !("Action:".data.isPrefixOf (pyStrip l)) &&
                  !("**Action:**".data.isPrefixOf (pyStrip l))) = true ∧
    (splitNl (pyStrip ("See: Safari open\nI will left_click(0.5, 0.5) now".data))).any
        (fun l => containsSub "left_click".data (pyStrip l)) = true ∧
    parseResponse "See: Safari open\nI will left_click(0.5, 0.5) now" = "wait(1000)" ∧
    containsSub "left_click".data "wait(1000)".data = false :=
  ⟨by decide, by decide, by decide, by decide⟩

/-- C6 amended: the fallback scan operates only while no `See:` label has
been captured: for a reply whose lines carry none of the four labels, the
scan returns the first stripped line that is nonempty, does not start
with `**`, and contains a recognizable action name. -/
theorem c6_fallback_scan (lines : List (List Char))
    (h : ∀ l ∈ lines, isLabeledLine (pyStrip l) = false) :
    scanLines lines [] = firstFallbackLine (lines.map pyStrip) := by
  induction lines with
  | nil => rfl
  | cons l rest ih =>
    have hl := h l (List.mem_cons_self l rest)
    simp only [isLabeledLine, Bool.or_eq_false_iff] at hl
    obtain ⟨⟨⟨h1, h2⟩, h3⟩, h4⟩ := hl
    have ihr := ih (fun m hm => h m (List.mem_cons_of_mem l hm))
    have e1 : ¬ ("See:".data.isPrefixOf (pyStrip l) = true) := by simp [h1]
    have e2 : ¬ ("Action:".data.isPrefixOf (pyStrip l) = true) := by simp [h2]
    have e3 : ¬ ("**See:**".data.isPrefixOf (pyStrip l) = true) := by simp [h3]
    have e4 : ¬ ("**Action:**".data.isPrefixOf (pyStrip l) = true) := by simp [h4]
    by_cases hc : fallbackCond (pyStrip l) = true
    · show scanLines (l :: rest) [] = _
      simp only [scanLines]
      rw [if_neg e1, if_neg e2, if_neg e3, if_neg e4]
      simp only [decide_True, Bool.true_and]
      rw [if_pos hc]
      unfold firstFallbackLine
      rw [List.map_cons, List.find?_cons_of_pos _ hc]
    · show scanLines (l :: rest) [] = _
      simp only [scanLines]
      rw [if_neg e1, if_neg e2, if_neg e3, if_neg e4]
      simp only [decide_True, Bool.true_and]
      rw [if_neg hc, ihr]
      unfold firstFallbackLine
      rw [List.map_cons, List.find?_cons_of_neg _ hc]

/-- C6 witness: with no labeled line anywhere, the fallback accepts the
first line containing an action name. -/
theorem c6_fallback_scan_witness :
    (∀ l ∈ [("no match here".data), ("I will left_click(0.5, 0.5) now".data)],
        isLabeledLine (pyStrip l) = false) ∧
    scanLines [("no match here".data), ("I will left_click(0.5, 0.5) now".data)] []
      = firstFallbackLine
          ([("no match here".data), ("I will left_click(0.5, 0.5) now".data)].map pyStrip) :=
  ⟨by decide, c6_fallback_scan _ (by decide)⟩

/-! ### Argument extraction (harvey.py lines 862-890) -/

/-- The character class `[0-9.]` of the coordinate pattern. -/
def isCoordChar (c : Char) : Bool := c.isDigit || c = '.'

/-- One attempt of the regex `\(([0-9.]+),\s*([0-9.]+)\)` anchored at the
current position (the greedy match is deterministic for this pattern:
giving back characters can never help, since `,`, `)` are outside every
repeated class). -/
def matchCoordsAt : List Char → Option (List Char × List Char)
  | '(' :: r =>
    let g1 := r.takeWhile isCoordChar
    if g1.isEmpty then none
    else
      match r.drop g1.length with
      | ',' :: r2 =>
        let sp := r2.takeWhile isPySpace
        let r3 := r2.drop sp.length
        let g2 := r3.takeWhile isCoordChar
        if g2.isEmpty then none
        else
          match r3.drop g2.length with
          | ')' :: _ => some (g1, g2)
          | _ => none
      | _ => none
  | _ => none

/-- `re.search` for the coordinate pattern: first position where it
matches. -/
def searchCoords : List Char → Option (List Char × List Char)
  | [] => none
  | c :: t =>
    match matchCoordsAt (c :: t) with
    | some r => some r
    | none => searchCoords t

/-- Python `float()` on a captured `[0-9.]+` token: digits, an optional
single dot, more digits; at least one digit; `none` models the
`ValueError` a second dot would raise. -/
def parsePyFloat (l : List Char) : Option ℚ :=
  let intPart := l.takeWhile Char.isDigit
  match l.drop intPart.length with
  | [] => if intPart.isEmpty then none else some (natOfDigits intPart)
  | '.' :: rest =>
    let frac := rest.takeWhile Char.isDigit
    if !(rest.drop frac.length).isEmpty then none
    else if intPart.isEmpty && frac.isEmpty then none
    else some ((natOfDigits intPart : ℚ) + (natOfDigits frac : ℚ) / 10 ^ frac.length)
  | _ => none

/-- `max(0.0, min(1.0, v))`. -/
def clamp01 (q : ℚ) : ℚ := max 0 (min 1 q)

/-- harvey.py `Harvey._extract_coords` (lines 862-876): search the
coordinate pattern, convert both captures with `float()`, clamp each to
[0,1].  `none` covers both a failed search and the `ValueError` path
(which `execute`'s `except` turns into a no-op as well). -/
def extract_coords (s : String) : Option (ℚ × ℚ) :=
  match searchCoords s.data with
  | none => none
  | some (g1, g2) =>
    match parsePyFloat g1, parsePyFloat g2 with
    | some x, some y => some (clamp01 x, clamp01 y)
    | _, _ => none

/-- Capture of `[^"]*` up to the closing quote; `none` if it never
closes. -/
def takeUntilQuote : List Char → Option (List Char)
  | [] => none
  | c :: t =>
    if c = '"' then some []
    else (takeUntilQuote t).map (fun r => c :: r)

def extract_text_aux : List Char → Option (List Char)
  | [] => none
  | c :: t => if c = '"' then takeUntilQuote t else extract_text_aux t

/-- harvey.py `Harvey._extract_text` (lines 878-883): the first
double-quoted segment, via `re.search` of `"([^"]*)"`. -/
def extract_text (s : String) : Option String :=
  (extract_text_aux s.data).map String.mk

/-- One attempt of the regex `\((\d+)\)` anchored at the current
position. -/
def matchNumAt : List Char → Option ℕ
  | '(' :: r =>
    let ds := r.takeWhile Char.isDigit
    if ds.isEmpty then none
    else
      match r.drop ds.length with
      | ')' :: _ => some (natOfDigits ds)
      | _ => none
  | _ => none

def extract_number_aux : List Char → Option ℕ
  | [] => none
  | c :: t =>
    match matchNumAt (c :: t) with
    | some n => some n
    | none => extract_number_aux t

/-- harvey.py `Harvey._extract_number` (lines 885-890): the first
parenthesized digit run. -/
def extract_number (s : String) : Option ℕ := extract_number_aux s.data

/-! ### Action dispatch (harvey.py `Harvey.execute`, lines 676-756) -/

/-- Python `str.startswith`. -/
def strStartsWith (s pre : String) : Bool := pre.data.isPrefixOf s.data

/-- The observable effect of one `Harvey.execute` call. -/
inductive ExecEffect where
  | moveMouse (x y : ℚ)
  | leftClick (x y : ℚ)
  | doubleClick (x y : ℚ)
  | hoverAt (x y : ℚ)
  | bulkType (s : String)
  | typeText (s : String)
  | scrollDir (s : String)
  | hotkeyPress (s : String)
  | waitMs (n : ℕ)
  | focusAddressBar
  | taskDone
  | skip
deriving DecidableEq

/-- harvey.py `Harvey.execute` (lines 676-756): prefix dispatch on the
action text.  Missing coordinates/text/number (Python falsiness) skip the
branch body; only the `done` branch returns `True`, every other path
returns `False` (modelled by the effect not being `taskDone`). -/
def execute (action_text : String) : ExecEffect :=
  if strStartsWith action_text "move_mouse" then
    match extract_coords action_text with
    | some (x, y) => .moveMouse x y
    | none => .skip
  else if strStartsWith action_text "left_click" then
    match extract_coords action_text with
    | some (x, y) => .leftClick x y
    | none => .skip
  else if strStartsWith action_text "double_click" then
    match extract_coords action_text with
    | some (x, y) => .doubleClick x y
    | none => .skip
  else if strStartsWith action_text "hover" then
    match extract_coords action_text with
    | some (x, y) => .hoverAt x y
    | none => .skip
  else if strStartsWith action_text "bulk_type" then
    match extract_text action_text with
    | some t => if t ≠ "" then .bulkType t else .skip
    | none => .skip
  else if strStartsWith action_text "type_text" then
    match extract_text action_text with
    | some t => if t ≠ "" then .typeText t else .skip
    | none => .skip
  else if strStartsWith action_text "scroll" then
    match extract_text action_text with
    | some d => if d ≠ "" then .scrollDir d else .skip
    | none => .skip
  else if strStartsWith action_text "hotkey" then
    match extract_text action_text with
    | some k => if k ≠ "" then .hotkeyPress k else .skip
    | none => .skip
  else if strStartsWith action_text "wait" then
    match extract_number action_text with
    | some ms => if ms ≠ 0 then .waitMs ms else .skip
    | none => .skip
  else if strStartsWith action_text "focus_address_bar" then
    .focusAddressBar
  else if strStartsWith action_text "done" then
    .taskDone
  else
    .skip

/-! ### C10: negative coordinates never match the extraction pattern -/

theorem parsePyFloat_nonneg (l : List Char) (q : ℚ)
    (h : parsePyFloat l = some q) : 0 ≤ q := by
  simp only [parsePyFloat] at h
  split at h
  · split at h
    · exact absurd h (by simp)
    · have hq : ((natOfDigits (l.takeWhile Char.isDigit) : ℕ) : ℚ) = q :=
        Option.some_inj.mp h
      rw [← hq]
      exact_mod_cast Nat.zero_le _
  · split at h
    · exact absurd h (by simp)
    · split at h
      · exact absurd h (by simp)
      · have hq := Option.some_inj.mp h
        rw [← hq]
        positivity
  · exact absurd h (by simp)

theorem clamp01_bounds (q : ℚ) : 0 ≤ clamp01 q ∧ clamp01 q ≤ 1 :=
  ⟨le_max_left 0 _, max_le (by norm_num) (min_le_left 1 q)⟩

theorem extract_coords_bounds (t : String) (x y : ℚ)
    (h : extract_coords t = some (x, y)) :
    0 ≤ x ∧ x ≤ 1 ∧ 0 ≤ y ∧ y ≤ 1 := by
  unfold extract_coords at h
  split at h
  · exact absurd h (by simp)
  · split at h
    · have hp := Option.some_inj.mp h
      have hx : clamp01 _ = x := congrArg Prod.fst hp
      have hy : clamp01 _ = y := congrArg Prod.snd hp
      rw [← hx, ← hy]
      exact ⟨(clamp01_bounds _).1, (clamp01_bounds _).2,
        (clamp01_bounds _).1, (clamp01_bounds _).2⟩
    · exact absurd h (by simp)

/-- C10: the coordinate pattern matches only unsigned decimals: the
sample `left_click(-0.2, 1.4)` extracts no coordinates and the pointer
action is skipped; every value `float()` produces from a captured token
is ≥ 0, and every extracted coordinate pair is already clamped into
[0,1]. -/
theorem c10_unsigned_coords :
    extract_coords "left_click(-0.2, 1.4)" = none ∧
    execute "left_click(-0.2, 1.4)" = ExecEffect.skip ∧
    (∀ (l : List Char) (q : ℚ), parsePyFloat l = some q → 0 ≤ q) ∧
    (∀ (t : String) (x y : ℚ), extract_coords t = some (x, y) →
        0 ≤ x ∧ x ≤ 1 ∧ 0 ≤ y ∧ y ≤ 1) :=
  ⟨by decide, by decide, parsePyFloat_nonneg, extract_coords_bounds⟩

/-- C10 witness: an in-pattern pair with an out-of-range second value is
extracted and clamped; the bounds clause of the theorem applies to it. -/
theorem c10_unsigned_coords_witness :
    extract_coords "left_click(0.5, 2)" = some (1/2, 1) ∧
    (0 ≤ (1/2 : ℚ) ∧ (1/2 : ℚ) ≤ 1 ∧ 0 ≤ (1 : ℚ) ∧ (1 : ℚ) ≤ 1) := by
  have h0 : extract_coords "left_click(0.5, 2)"
      = some (clamp01 ((natOfDigits ['0'] : ℚ) + (natOfDigits ['5'] : ℚ) / 10 ^ 1),
              clamp01 ((natOfDigits ['2'] : ℚ))) := rfl
  have he : extract_coords "left_click(0.5, 2)" = some (1/2, 1) := by
    rw [h0]
    rw [show natOfDigits ['0'] = 0 from by decide,
      show natOfDigits ['5'] = 5 from by decide,
      show natOfDigits ['2'] = 2 from by decide]
    norm_num [clamp01, min_def, max_def]
  exact ⟨he, c10_unsigned_coords.2.2.2 "left_click(0.5, 2)" (1/2) 1 he⟩

/-! ### Control loop (harvey.py `Harvey.run`, lines 892-938) -/

/-- How one run of `Harvey.run` ended: `done()` executed
("✅ Task complete!"), screenshot capture failed (`break`), or the
20-step budget ran out (the `for` loop finished with no `done`). -/
inductive RunExit where
  | taskComplete
  | captureFailed
  | budgetExhausted
deriving DecidableEq

/-- The body of `for step in range(20)`: capture a screenshot (a `None`
breaks the run), ask the model (`think`, success path: `parseResponse`
of the reply), execute the directive, stop if it was `done`.  `capture`
and `model` are the external collaborators; the count is the number of
iterations that reached `think`/`execute`. -/
def runSteps (capture : ℕ → Option String) (model : String → String) :
    List ℕ → ℕ → ℕ × RunExit
  | [], count => (count, .budgetExhausted)
  | s :: rest, count =>
    match capture s with
    | none => (count, .captureFailed)
    | some shot =>
      let action := parseResponse (model shot)
      if execute action = ExecEffect.taskDone then (count + 1, .taskComplete)
      else runSteps capture model rest (count + 1)

/-- `Harvey.run`: the 20-iteration loop. -/
def run (capture : ℕ → Option String) (model : String → String) : ℕ × RunExit :=
  runSteps capture model (List.range 20) 0

/-- C8: if capture always succeeds and every model reply is unparsable
(the scan finds no action), the loop performs exactly 20 iterations and
ends with budget exhaustion — an exit distinguishable from `done()`. -/
theorem c8_budget_exhaustion (capture : ℕ → Option String)
    (model : String → String)
    (hcap : ∀ s, capture s ≠ none)
    (hun : ∀ img, scanAction (model img) = []) :
    run capture model = (20, RunExit.budgetExhausted) ∧
    RunExit.budgetExhausted ≠ RunExit.taskComplete := by
  refine ⟨?_, by decide⟩
  have key : ∀ (l : List ℕ) (count : ℕ),
      runSteps capture model l count = (count + l.length, .budgetExhausted) := by
    intro l
    induction l with
    | nil => intro count; simp [runSteps]
    | cons s rest ih =>
      intro count
      obtain ⟨img, himg⟩ := Option.ne_none_iff_exists'.mp (hcap s)
      have hact : parseResponse (model img) = "wait(1000)" := by
        simp [parseResponse, hun (img)]
      have hnd : ¬ (execute (parseResponse (model img)) = ExecEffect.taskDone) := by
        rw [hact]
        decide
      simp only [runSteps, himg]
      rw [if_neg hnd, ih (count + 1)]
      simp only [List.length_cons]
      congr 1
      omega
  have h20 : (List.range 20).length = 20 := by simp
  unfold run
  rw [key (List.range 20) 0, h20]

/-- C8 witness: concrete always-succeeding capture and
always-unparsable model. -/
theorem c8_budget_exhaustion_witness :
    (∀ s, (fun (_ : ℕ) => some "img") s ≠ none) ∧
    run (fun _ => some "img") (fun _ => "I am not sure")
      = (20, RunExit.budgetExhausted) := by
  refine ⟨fun s => by simp, ?_⟩
  exact (c8_budget_exhaustion (fun _ => some "img") (fun _ => "I am not sure")
    (fun s => by simp)
    (fun img => show scanAction "I am not sure" = [] from by decide)).1

/-! ### Rate-limit handling (harvey.py `Harvey.think`, lines 652-674) -/

/-- Greedy match of `(\d+\.?\d*)s` at the current position (after the
literal `Please retry in `); returns the integer and fraction digit
captures.  The greedy match is deterministic: giving digits back to the
`s` literal can never succeed. -/
def matchDelayAt (l : List Char) : Option (List Char × List Char) :=
  let d1 := l.takeWhile Char.isDigit
  if d1.isEmpty then none
  else
    match l.drop d1.length with
    | '.' :: r2 =>
      let d2 := r2.takeWhile Char.isDigit
      match r2.drop d2.length with
      | 's' :: _ => some (d1, d2)
      | _ => none
    | 's' :: _ => some (d1, [])
    | _ => none

/-- `re.search(r'Please retry in (\d+\.?\d*)s', error_str)`: the first
position whose literal prefix and number both match. -/
def searchRetryDelay : List Char → Option (List Char × List Char)
  | [] => none
  | c :: t =>
    if "Please retry in ".data.isPrefixOf (c :: t) then
      match matchDelayAt ((c :: t).drop 16) with
      | some r => some r
      | none => searchRetryDelay t
    else searchRetryDelay t

/-- Numeric value of a captured delay: `float("d1.d2")`. -/
def delayValue (p : List Char × List Char) : ℚ :=
  (natOfDigits p.1 : ℚ) + (natOfDigits p.2 : ℚ) / 10 ^ p.2.length

/-- The rate-limit test of line 657: `"429" in error_str or
"RESOURCE_EXHAUSTED" in error_str`. -/
def isRateLimited (error_str : String) : Bool :=
  containsSub "429".data error_str.data ||
  containsSub "RESOURCE_EXHAUSTED".data error_str.data

/-- The browser/search allow-list of lines 670-672 (on the lowercased
task). -/
def browserSearchTask (task : String) : Bool :=
  (containsSub "safari".data (pyLower task.data) ||
   containsSub "browser".data (pyLower task.data)) &&
  containsSub "search".data (pyLower task.data)

/-- harvey.py lines 652-674, the `except` branch of `Harvey.think`:
returns the seconds slept (`none` when no sleep happens) and the action
string returned to the loop.  On a rate-limit error the code sleeps
extracted-delay + 1 (or 10), then returns `'hotkey("cmd+t")'` for a
browser-search task and `"done()"` otherwise; any other failure returns
`"done()"` directly. -/
def handleLLMError (error_str task : String) : Option ℚ × String :=
  if containsSub "429".data error_str.data ||
      containsSub "RESOURCE_EXHAUSTED".data error_str.data then
    let slept :=
      match searchRetryDelay error_str.data with
      | some p => delayValue p + 1
      | none => 10
    if (containsSub "safari".data (pyLower task.data) ||
        containsSub "browser".data (pyLower task.data)) then
      if containsSub "search".data (pyLower task.data) then
        (some slept, "hotkey(\"cmd+t\")")
      else (some slept, "done()")
    else (some slept, "done()")
  else
    (none, "done()")

/-- The sleep the rate-limit branch performs: extracted delay plus the
1-second buffer, or the 10-second default. -/
def rateLimitSleep (error_str : String) : ℚ :=
  match searchRetryDelay error_str.data with
  | some p => delayValue p + 1
  | none => 10

/-! ### C2: what the loop does after a rate-limit failure -/

/-- C2 counterexample: on a rate-limited model call with message
`429 Please retry in 2.5s` and the (non-browser) task `write a note`,
`think` sleeps 2.5 + 1 = 3.5 seconds but then returns `"done()"`, and
`execute "done()"` terminates the task — there is no further model
attempt. -/
theorem c2_counterexample :
    handleLLMError "429 Please retry in 2.5s" "write a note"
      = (some (7/2), "done()") ∧
    execute "done()" = ExecEffect.taskDone := by
  constructor
  · have h0 : handleLLMError "429 Please retry in 2.5s" "write a note"
        = (some (delayValue ("2".data, "5".data) + 1), "done()") := rfl
    rw [h0]
    have hv : delayValue ("2".data, "5".data) + 1 = 7/2 := by
      unfold delayValue
      rw [show natOfDigits "2".data = 2 from by decide,
        show natOfDigits "5".data = 5 from by decide]
      norm_num
    rw [hv]
  · decide

/-- C2 amended: on a model-call failure whose text indicates rate
limiting, the loop sleeps the extracted duration plus a 1-second buffer
(10 seconds if no duration is present), but does not retry: it returns
the `done()` directive, terminating the task — except for tasks
mentioning safari/browser together with search, which instead get the
single recovery action `hotkey("cmd+t")`. -/
theorem c2_rate_limit_terminates (e t : String) (h : isRateLimited e = true) :
    handleLLMError e t
      = (some (rateLimitSleep e),
         if browserSearchTask t then "hotkey(\"cmd+t\")" else "done()") := by
  unfold isRateLimited at h
  unfold handleLLMError rateLimitSleep browserSearchTask
  rw [if_pos h]
  by_cases h1 : (containsSub "safari".data (pyLower t.data) ||
      containsSub "browser".data (pyLower t.data)) = true
  · rw [if_pos h1]
    by_cases h2 : containsSub "search".data (pyLower t.data) = true
    · have hpos : ((containsSub "safari".data (pyLower t.data) ||
          containsSub "browser".data (pyLower t.data)) &&
          containsSub "search".data (pyLower t.data)) = true := by
        rw [Bool.and_eq_true]
        exact ⟨h1, h2⟩
      rw [if_pos h2, if_pos hpos]
    · have hneg : ¬ (((containsSub "safari".data (pyLower t.data) ||
          containsSub "browser".data (pyLower t.data)) &&
          containsSub "search".data (pyLower t.data)) = true) := by
        rw [Bool.and_eq_true]
        exact fun hc => h2 hc.2
      rw [if_neg h2, if_neg hneg]
  · have hneg : ¬ (((containsSub "safari".data (pyLower t.data) ||
        containsSub "browser".data (pyLower t.data)) &&
        containsSub "search".data (pyLower t.data)) = true) := by
      rw [Bool.and_eq_true]
      exact fun hc => h1 hc.1
    rw [if_neg h1, if_neg hneg]

/-- C2 witness: the amended statement at a concrete rate-limited error
and a browser-search task. -/
theorem c2_rate_limit_terminates_witness :
    isRateLimited "Error 429 RESOURCE_EXHAUSTED" = true ∧
    handleLLMError "Error 429 RESOURCE_EXHAUSTED" "open safari and search cats"
      = (some (rateLimitSleep "Error 429 RESOURCE_EXHAUSTED"),
         if browserSearchTask "open safari and search cats"
         then "hotkey(\"cmd+t\")" else "done()") :=
  ⟨by decide, c2_rate_limit_terminates _ _ (by decide)⟩

/-! ### Credential pool (api_manager.py) -/

/-- `APIKeyManager` state: `api_keys` is the insertion-ordered dict of
role name → key value, `usage_tracker` maps a key value to the
`retry_after` timestamp of its (always-true) `rate_limited` entry, and
`current_key_index` is the rotation cursor.  Wall-clock time
(`time.time()`) is passed explicitly as a ℚ. -/
structure APIKeyManager where
  api_keys : List (String × String)
  usage_tracker : List (String × ℚ)
  current_key_index : ℕ
deriving DecidableEq

/-- api_manager.py `load_api_keys` (lines 18-41): read the five
environment variables in fixed order and keep the ones that are set.
An empty result only prints a warning — construction still succeeds. -/
def load_api_keys (env : String → Option String) : List (String × String) :=
  ([("voice", env "GOOGLE_API_KEY_VOICE"),
    ("flash", env "GOOGLE_API_KEY_FLASH"),
    ("completion1", env "GOOGLE_API_KEY_1"),
    ("completion2", env "GOOGLE_API_KEY_2"),
    ("completion3", env "GOOGLE_API_KEY_3")]).filterMap
    (fun p => p.2.map (fun v => (p.1, v)))

/-- `APIKeyManager.__init__` (lines 13-16): load the keys, start with an
empty usage tracker and cursor 0.  This is total — the module-level
`api_manager = APIKeyManager()` (line 108) cannot fail. -/
def APIKeyManager.init (env : String → Option String) : APIKeyManager :=
  { api_keys := load_api_keys env, usage_tracker := [], current_key_index := 0 }

/-- The rotation group: `[k for k in api_keys if k.startswith('completion')]`. -/
def completion_keys (st : APIKeyManager) : List (String × String) :=
  st.api_keys.filter (fun p => "completion".data.isPrefixOf p.1.data)

/-- api_manager.py `get_key_for_service` (lines 43-65): dedicated keys
for `voice`/`flash`; round-robin over the completion group (advancing the
cursor); otherwise fall back to the first key of any role, or `None` for
an empty pool. -/
def get_key_for_service (st : APIKeyManager) (service_type : String) :
    Option String × APIKeyManager :=
  if service_type = "voice" ∧ (st.api_keys.lookup "voice").isSome then
    (st.api_keys.lookup "voice", st)
  else if service_type = "flash" ∧ (st.api_keys.lookup "flash").isSome then
    (st.api_keys.lookup "flash", st)
  else if service_type = "completion" ∧ completion_keys st ≠ [] then
    let l := completion_keys st
    (some (l.getD (st.current_key_index % l.length) ("", "")).2,
     { st with current_key_index := st.current_key_index + 1 })
  else
    (st.api_keys.head?.map Prod.snd, st)

/-- api_manager.py `mark_rate_limited` (lines 73-79): record
`retry_after = now + retry_after_seconds` for the key (dict upsert). -/
def mark_rate_limited (st : APIKeyManager) (api_key : String)
    (retry_after : ℚ) (now : ℚ) : APIKeyManager :=
  let updated :=
    if (st.usage_tracker.lookup api_key).isSome then
      st.usage_tracker.map (fun p => if p.1 = api_key then (p.1, now + retry_after) else p)
    else
      st.usage_tracker ++ [(api_key, now + retry_after)]
  { st with usage_tracker := updated }

/-- api_manager.py `is_key_available` (lines 81-90): unavailable exactly
while `time.time() < retry_after`. -/
def is_key_available (st : APIKeyManager) (api_key : String) (now : ℚ) : Bool :=
  match st.usage_tracker.lookup api_key with
  | none => true
  | some retry_after => if now < retry_after then false else true

/-- The fallback scan of `get_available_key` (lines 100-103): the first
key value in insertion order that is available. -/
def scan_pool (st : APIKeyManager) (now : ℚ) : Option String :=
  (st.api_keys.find? (fun p => is_key_available st p.2 now)).map Prod.snd

/-- api_manager.py `get_available_key` (lines 92-105): the preferred key
for the role if it is available, else the first available key of any
role, else `None`. -/
def get_available_key (st : APIKeyManager) (service_type : String) (now : ℚ) :
    Option String × APIKeyManager :=
  let pr := get_key_for_service st service_type
  match pr.1 with
  | some p =>
    if is_key_available pr.2 p now then (some p, pr.2)
    else (scan_pool pr.2 now, pr.2)
  | none => (scan_pool pr.2 now, pr.2)

/-- `k` consecutive `get_available_key` calls for the completion role,
threading the manager state. -/
def acquireSeq : ℕ → APIKeyManager → ℚ → List (Option String)
  | 0, _, _ => []
  | Nat.succ n, st, now =>
    let r := get_available_key st "completion" now
    r.1 :: acquireSeq n r.2 now

/-! ### C3: an empty credential pool at startup -/

/-- C3 counterexample: with no credential environment variables set,
`APIKeyManager()` construction succeeds and returns an ordinary manager
(empty key map, empty tracker, cursor 0) — no error reaches the caller;
the failure only shows up later, when `get_available_key` returns
`None`. -/
theorem c3_counterexample :
    (APIKeyManager.init (fun _ => none)).api_keys = [] ∧
    (APIKeyManager.init (fun _ => none)).usage_tracker = [] ∧
    (APIKeyManager.init (fun _ => none)).current_key_index = 0 ∧
    (get_available_key (APIKeyManager.init (fun _ => none)) "completion" 0).1
      = none := by
  refine ⟨rfl, rfl, rfl, by decide⟩

/-- C3 amended: an empty pool at startup is not surfaced as a fatal
error: `load_api_keys` only prints a warning and returns, construction
yields a manager with an empty key map, and every subsequent acquire (for
any role, at any time) returns `None`. -/
theorem c3_empty_pool_silent (env : String → Option String)
    (h : ∀ k, env k = none) :
    (APIKeyManager.init env).api_keys = [] ∧
    (∀ (service : String) (now : ℚ),
      (get_available_key (APIKeyManager.init env) service now).1 = none) := by
  have hk : (APIKeyManager.init env).api_keys = [] := by
    simp [APIKeyManager.init, load_api_keys, h]
  refine ⟨hk, ?_⟩
  intro service now
  unfold get_available_key get_key_for_service scan_pool completion_keys
  rw [hk]
  simp [hk]

/-- C3 witness: the amended statement at the concrete empty
environment. -/
theorem c3_empty_pool_silent_witness :
    (∀ k, (fun (_ : String) => (none : Option String)) k = none) ∧
    (APIKeyManager.init (fun _ => none)).api_keys = [] ∧
    (get_available_key (APIKeyManager.init (fun _ => none)) "flash" 3).1 = none :=
  ⟨fun _ => rfl,
   (c3_empty_pool_silent (fun _ => none) (fun _ => rfl)).1,
   (c3_empty_pool_silent (fun _ => none) (fun _ => rfl)).2 "flash" 3⟩

/-! ### C5: round-robin rotation of the completion group -/

/-- C5 counterexample: with three completion keys and the second one
throttled, two consecutive acquires both return `K1` even though `K3` is
available — the cursor indexes the full group and the fallback scans the
whole pool from the front, so the rotation is NOT a round-robin among
currently-available members (which could never return the same member
twice in a row while another is available). -/
theorem c5_counterexample :
    acquireSeq 2
        ⟨[("completion1", "K1"), ("completion2", "K2"), ("completion3", "K3")],
         [("K2", 100)], 0⟩ 0
      = [some "K1", some "K1"] ∧
    is_key_available
        ⟨[("completion1", "K1"), ("completion2", "K2"), ("completion3", "K3")],
         [("K2", 100)], 0⟩ "K3" 0 = true ∧
    (some "K1" : Option String) ≠ some "K3" :=
  ⟨by decide, by decide, by decide⟩

theorem get_available_key_completion_step (st : APIKeyManager) (now : ℚ)
    (hT : st.usage_tracker = []) (hK : completion_keys st ≠ []) :
    get_available_key st "completion" now
      = (some ((completion_keys st).getD
            (st.current_key_index % (completion_keys st).length) ("", "")).2,
         { st with current_key_index := st.current_key_index + 1 }) := by
  have hv : ¬ ("completion" = "voice" ∧ (st.api_keys.lookup "voice").isSome) :=
    fun hc => absurd hc.1 (by decide)
  have hf : ¬ ("completion" = "flash" ∧ (st.api_keys.lookup "flash").isSome) :=
    fun hc => absurd hc.1 (by decide)
  have hc : ("completion" = "completion" ∧ completion_keys st ≠ []) := ⟨rfl, hK⟩
  unfold get_available_key get_key_for_service
  rw [if_neg hv, if_neg hf, if_pos hc]
  simp only []
  have havail : is_key_available
      { st with current_key_index := st.current_key_index + 1 }
      ((completion_keys st).getD
        (st.current_key_index % (completion_keys st).length) ("", "")).2 now
      = true := by
    unfold is_key_available
    simp [hT]
  rw [havail]
  simp

theorem acquireSeq_formula (l : List (String × String)) (hne : l ≠ []) :
    ∀ (n : ℕ) (st : APIKeyManager) (now : ℚ),
      st.usage_tracker = [] → completion_keys st = l →
      acquireSeq n st now
        = (List.range n).map
            (fun i => some (l.getD ((st.current_key_index + i) % l.length) ("", "")).2) := by
  intro n
  induction n with
  | zero => intro st now hT hL; simp [acquireSeq]
  | succ m ih =>
    intro st now hT hL
    have hK : completion_keys st ≠ [] := by rw [hL]; exact hne
    have hstep := get_available_key_completion_step st now hT hK
    show (get_available_key st "completion" now).1 ::
        acquireSeq m (get_available_key st "completion" now).2 now = _
    rw [hstep]
    have hT2 : ({ st with current_key_index := st.current_key_index + 1 }
        : APIKeyManager).usage_tracker = [] := hT
    have hL2 : completion_keys
        { st with current_key_index := st.current_key_index + 1 } = l := hL
    rw [ih { st with current_key_index := st.current_key_index + 1 } now hT2 hL2]
    rw [hL]
    rw [List.range_succ_eq_map, List.map_cons, List.map_map]
    congr 1
    apply List.map_congr_left
    intro i _
    show some (l.getD ((st.current_key_index + 1 + i) % l.length) ("", "")).2 = _
    rw [show st.current_key_index + 1 + i = st.current_key_index + (i + 1) from by omega]
    rfl

/-- C5 amended: `acquire` for the completion role selects
`completion_keys[cursor mod k]` among ALL group members (availability is
checked only afterwards, and a throttled selection falls back to the
first available key of the whole pool), advancing the cursor on every
call.  With no key throttled, `k` consecutive acquires return exactly the
group values rotated by the initial cursor position — each member exactly
once, in stable cyclic order. -/
theorem c5_rotation (st : APIKeyManager) (now : ℚ)
    (hT : st.usage_tracker = []) (hK : completion_keys st ≠ []) :
    acquireSeq (completion_keys st).length st now
      = ((completion_keys st).map (fun p => some p.2)).rotate
          (st.current_key_index % (completion_keys st).length) ∧
    (acquireSeq (completion_keys st).length st now).Perm
      ((completion_keys st).map (fun p => some p.2)) := by
  have hform := acquireSeq_formula (completion_keys st) hK
    (completion_keys st).length st now hT rfl
  have hkpos : 0 < (completion_keys st).length := List.length_pos.mpr hK
  have hrot : (List.range (completion_keys st).length).map
        (fun i => some ((completion_keys st).getD
          ((st.current_key_index + i) % (completion_keys st).length) ("", "")).2)
      = ((completion_keys st).map (fun p => some p.2)).rotate
          (st.current_key_index % (completion_keys st).length) := by
    apply List.ext_getElem
    · simp [List.length_rotate]
    · intro i h1 h2
      rw [List.getElem_map, List.getElem_range, List.getElem_rotate,
        List.getElem_map]
      have hlt : (st.current_key_index + i) % (completion_keys st).length
          < (completion_keys st).length := Nat.mod_lt _ hkpos
      rw [List.getD_eq_getElem _ _ hlt]
      have hidx : (st.current_key_index + i) % (completion_keys st).length
          = (i + st.current_key_index % (completion_keys st).length)
              % ((completion_keys st).map (fun p => some p.2)).length := by
        rw [List.length_map]
        have h3 := (Nat.mod_modEq st.current_key_index
          (completion_keys st).length).symm.add_right i
        rw [Nat.add_comm (st.current_key_index % (completion_keys st).length) i] at h3
        exact h3
      simp only [hidx]
  constructor
  · rw [hform, hrot]
  · rw [hform, hrot]
    exact List.rotate_perm _ _

/-- C5 witness: a two-key completion group with cursor 5 and no
throttling; two acquires return the group rotated by 5 mod 2 = 1. -/
theorem c5_rotation_witness :
    ((⟨[("completion1", "K1"), ("completion2", "K2")], [], 5⟩
        : APIKeyManager).usage_tracker = []) ∧
    (completion_keys ⟨[("completion1", "K1"), ("completion2", "K2")], [], 5⟩ ≠ []) ∧
    acquireSeq
        (completion_keys
          ⟨[("completion1", "K1"), ("completion2", "K2")], [], 5⟩).length
        ⟨[("completion1", "K1"), ("completion2", "K2")], [], 5⟩ 0
      = ((completion_keys
            ⟨[("completion1", "K1"), ("completion2", "K2")], [], 5⟩).map
          (fun p => some p.2)).rotate
          (5 % (completion_keys
            ⟨[("completion1", "K1"), ("completion2", "K2")], [], 5⟩).length) :=
  ⟨rfl, by decide,
   (c5_rotation ⟨[("completion1", "K1"), ("completion2", "K2")], [], 5⟩ 0
      rfl (by decide)).1⟩
